import Mathlib

/-!
Verification of the Rose program intermediate representation from
`src/rose/rose_build_program.h`: the instruction value model (hash,
equivalence-modulo-targets, target rewriting) and the `RoseProgram`
container (insertion, block splicing, append-replacing-END, in-place
replacement), together with the whole-program hash and the program
equivalence relation.

Modelling conventions:
* machine integers (`u8`/`u32`/`u64`/`size_t`) are `Nat`, signed 32-bit
  scalars (`s32`) are `Int`; hash arithmetic wraps modulo `2 ^ 64`;
* an instruction pointer (`const RoseInstruction *`) is a numeric
  identity: each owned instruction slot (`PNode`) carries the id `nid`
  that stands for its address, and target fields hold such ids;
* `std::vector<std::unique_ptr<RoseInstruction>>` is a `List PNode`;
  the moved-from state of a `unique_ptr` is modelled by `Option` where
  it matters (the residue of a consumed block).
-/

namespace RoseIR

/-- Boost-style `hash_combine` over a 64-bit `size_t`, as used by the
source through `boost::hash_combine`:
`seed ^= h + 0x9e3779b9 + (seed << 6) + (seed >> 2)`, wrapping. -/
def hashCombine (seed h : Nat) : Nat :=
  Nat.xor seed ((h + 0x9e3779b9 + (seed * 64) % 2 ^ 64 + seed / 4) % 2 ^ 64) % 2 ^ 64

/-- Conversion of a signed scalar to the 64-bit `size_t` fed to
`boost::hash_combine` (two's complement). -/
def intHash (i : Int) : Nat := (i % (2 ^ 64 : Nat)).toNat

/-- Boost hash of a sequence (`hash_range` as used for `std::array` and
`std::vector` members): fold `hash_combine` from seed 0. -/
def hashList (l : List Nat) : Nat := l.foldl hashCombine 0

/-- The opcode catalogue `RoseInstructionCode`, one tag per concrete
instruction class of the source. The two infix/prefix check opcodes are
abbreviated (source: ROSE_INSTR_CHECK_INFIX, ROSE_INSTR_CHECK_PREFIX,
ROSE_INSTR_TRIGGER_INFIX). -/
inductive RoseInstructionCode : Type
  | ANCHORED_DELAY
  | CHECK_LIT_EARLY
  | CHECK_GROUPS
  | CHECK_ONLY_EOD
  | CHECK_BOUNDS
  | CHECK_NOT_HANDLED
  | CHECK_LOOKAROUND
  | CHECK_MASK
  | CHECK_MASK_32
  | CHECK_BYTE
  | CHECK_INFX
  | CHECK_PRFX
  | PUSH_DELAYED
  | RECORD_ANCHORED
  | CATCH_UP
  | CATCH_UP_MPV
  | SOM_ADJUST
  | SOM_LEFTFIX
  | SOM_FROM_REPORT
  | SOM_ZERO
  | TRIGGER_INFX
  | TRIGGER_SUFFIX
  | DEDUPE
  | DEDUPE_SOM
  | REPORT_CHAIN
  | REPORT_SOM_INT
  | REPORT_SOM_AWARE
  | REPORT
  | REPORT_EXHAUST
  | REPORT_SOM
  | REPORT_SOM_EXHAUST
  | DEDUPE_AND_REPORT
  | FINAL_REPORT
  | CHECK_EXHAUSTED
  | CHECK_MIN_LENGTH
  | SET_STATE
  | SET_GROUPS
  | SQUASH_GROUPS
  | CHECK_STATE
  | SPARSE_ITER_BEGIN
  | SPARSE_ITER_NEXT
  | SPARSE_ITER_ANY
  | ENGINES_EOD
  | SUFFIXES_EOD
  | MATCHER_EOD
  | END
deriving DecidableEq

/-- Modelled from the spec: the numeric value of each opcode ("a unique
8-bit opcode value"); the enum itself lives in rose_program.h, which is
not among the staged sources. The numbering follows the catalogue order;
the claims below depend only on the values being distinct per opcode. -/
def opcodeVal : RoseInstructionCode → Nat
  | .ANCHORED_DELAY => 0
  | .CHECK_LIT_EARLY => 1
  | .CHECK_GROUPS => 2
  | .CHECK_ONLY_EOD => 3
  | .CHECK_BOUNDS => 4
  | .CHECK_NOT_HANDLED => 5
  | .CHECK_LOOKAROUND => 6
  | .CHECK_MASK => 7
  | .CHECK_MASK_32 => 8
  | .CHECK_BYTE => 9
  | .CHECK_INFX => 10
  | .CHECK_PRFX => 11
  | .PUSH_DELAYED => 12
  | .RECORD_ANCHORED => 13
  | .CATCH_UP => 14
  | .CATCH_UP_MPV => 15
  | .SOM_ADJUST => 16
  | .SOM_LEFTFIX => 17
  | .SOM_FROM_REPORT => 18
  | .SOM_ZERO => 19
  | .TRIGGER_INFX => 20
  | .TRIGGER_SUFFIX => 21
  | .DEDUPE => 22
  | .DEDUPE_SOM => 23
  | .REPORT_CHAIN => 24
  | .REPORT_SOM_INT => 25
  | .REPORT_SOM_AWARE => 26
  | .REPORT => 27
  | .REPORT_EXHAUST => 28
  | .REPORT_SOM => 29
  | .REPORT_SOM_EXHAUST => 30
  | .DEDUPE_AND_REPORT => 31
  | .FINAL_REPORT => 32
  | .CHECK_EXHAUSTED => 33
  | .CHECK_MIN_LENGTH => 34
  | .SET_STATE => 35
  | .SET_GROUPS => 36
  | .SQUASH_GROUPS => 37
  | .CHECK_STATE => 38
  | .SPARSE_ITER_BEGIN => 39
  | .SPARSE_ITER_NEXT => 40
  | .SPARSE_ITER_ANY => 41
  | .ENGINES_EOD => 42
  | .SUFFIXES_EOD => 43
  | .MATCHER_EOD => 44
  | .END => 45

/-- The `som_operation` payload (from som/som_operation.h, not among the
staged sources; the instruction code reads `som.type` and `som.onmatch`
for hashing and compares the whole struct bytewise with `memcmp`, so the
remaining bytes are collapsed into one `aux` field and the bytewise
comparison is structure equality). -/
structure SomOperation where
  type : Nat
  onmatch : Nat
  aux : Nat
deriving DecidableEq

/-- One Rose instruction value: a tagged variant with one arm per
concrete `RoseInstr...` class of the source, carrying the same payload
fields. Target pointer fields hold the numeric identity of the pointed-to
instruction. For `sparseIterBegin`, `iter_offset` is the mutable
emission-state field read by its `equiv_to`; the other two mutable
fields (`is_written`, `jump_table_offset`) are only touched by `write()`
and are not part of any operation modelled here. -/
inductive RoseInstruction : Type
  | anchoredDelay (groups : Nat) (target : Nat)
  | checkLitEarly (min_offset : Nat)
  | checkGroups (groups : Nat)
  | checkOnlyEod (target : Nat)
  | checkBounds (min_bound max_bound : Nat) (target : Nat)
  | checkNotHandled (key : Nat) (target : Nat)
  | checkLookaround (index count : Nat) (target : Nat)
  | checkMask (and_mask cmp_mask neg_mask : Nat) (offset : Int) (target : Nat)
  | checkMask32 (and_mask cmp_mask : List Nat) (neg_mask : Nat) (offset : Int)
      (target : Nat)
  | checkByte (and_mask cmp_mask negation : Nat) (offset : Int) (target : Nat)
  | checkInfx (queue lag report : Nat) (target : Nat)
  | checkPrfx (queue lag report : Nat) (target : Nat)
  | pushDelayed (delay index : Nat)
  | recordAnchored (id : Nat)
  | catchUp
  | catchUpMpv
  | somAdjust (distance : Nat)
  | somLeftfix (queue lag : Nat)
  | somFromReport (som : SomOperation)
  | somZero
  | triggerInfx (cancel queue event : Nat)
  | triggerSuffix (queue event : Nat)
  | dedupe (quash_som dkey : Nat) (offset_adjust : Int) (target : Nat)
  | dedupeSom (quash_som dkey : Nat) (offset_adjust : Int) (target : Nat)
  | reportChain (event top_squash_distance : Nat)
  | reportSomInt (som : SomOperation)
  | reportSomAware (som : SomOperation)
  | report (onmatch : Nat) (offset_adjust : Int)
  | reportExhaust (onmatch : Nat) (offset_adjust : Int) (ekey : Nat)
  | reportSom (onmatch : Nat) (offset_adjust : Int)
  | reportSomExhaust (onmatch : Nat) (offset_adjust : Int) (ekey : Nat)
  | dedupeAndReport (quash_som dkey onmatch : Nat) (offset_adjust : Int)
      (target : Nat)
  | finalReport (onmatch : Nat) (offset_adjust : Int)
  | checkExhausted (ekey : Nat) (target : Nat)
  | checkMinLength (end_adj : Int) (min_length : Nat) (target : Nat)
  | setState (index : Nat)
  | setGroups (groups : Nat)
  | squashGroups (groups : Nat)
  | checkState (index : Nat) (target : Nat)
  | sparseIterBegin (num_keys : Nat) (jump_table : List (Nat × Nat))
      (target : Nat) (iter_offset : Nat)
  | sparseIterNext (state : Nat) (begin : Nat) (target : Nat)
  | sparseIterAny (num_keys : Nat) (keys : List Nat) (target : Nat)
  | enginesEod (iter_offset : Nat)
  | suffixesEod
  | matcherEod
  | end_
deriving DecidableEq

/-- The opcode of an instruction (`code()` in the source). -/
def instrCode : RoseInstruction → RoseInstructionCode
  | .anchoredDelay .. => .ANCHORED_DELAY
  | .checkLitEarly .. => .CHECK_LIT_EARLY
  | .checkGroups .. => .CHECK_GROUPS
  | .checkOnlyEod .. => .CHECK_ONLY_EOD
  | .checkBounds .. => .CHECK_BOUNDS
  | .checkNotHandled .. => .CHECK_NOT_HANDLED
  | .checkLookaround .. => .CHECK_LOOKAROUND
  | .checkMask .. => .CHECK_MASK
  | .checkMask32 .. => .CHECK_MASK_32
  | .checkByte .. => .CHECK_BYTE
  | .checkInfx .. => .CHECK_INFX
  | .checkPrfx .. => .CHECK_PRFX
  | .pushDelayed .. => .PUSH_DELAYED
  | .recordAnchored .. => .RECORD_ANCHORED
  | .catchUp => .CATCH_UP
  | .catchUpMpv => .CATCH_UP_MPV
  | .somAdjust .. => .SOM_ADJUST
  | .somLeftfix .. => .SOM_LEFTFIX
  | .somFromReport .. => .SOM_FROM_REPORT
  | .somZero => .SOM_ZERO
  | .triggerInfx .. => .TRIGGER_INFX
  | .triggerSuffix .. => .TRIGGER_SUFFIX
  | .dedupe .. => .DEDUPE
  | .dedupeSom .. => .DEDUPE_SOM
  | .reportChain .. => .REPORT_CHAIN
  | .reportSomInt .. => .REPORT_SOM_INT
  | .reportSomAware .. => .REPORT_SOM_AWARE
  | .report .. => .REPORT
  | .reportExhaust .. => .REPORT_EXHAUST
  | .reportSom .. => .REPORT_SOM
  | .reportSomExhaust .. => .REPORT_SOM_EXHAUST
  | .dedupeAndReport .. => .DEDUPE_AND_REPORT
  | .finalReport .. => .FINAL_REPORT
  | .checkExhausted .. => .CHECK_EXHAUSTED
  | .checkMinLength .. => .CHECK_MIN_LENGTH
  | .setState .. => .SET_STATE
  | .setGroups .. => .SET_GROUPS
  | .squashGroups .. => .SQUASH_GROUPS
  | .checkState .. => .CHECK_STATE
  | .sparseIterBegin .. => .SPARSE_ITER_BEGIN
  | .sparseIterNext .. => .SPARSE_ITER_NEXT
  | .sparseIterAny .. => .SPARSE_ITER_ANY
  | .enginesEod .. => .ENGINES_EOD
  | .suffixesEod => .SUFFIXES_EOD
  | .matcherEod => .MATCHER_EOD
  | .end_ => .END

/-- The per-instruction structural hash `hash()`: seeded with the opcode
value, then `boost::hash_combine` of each hashed payload field exactly as
the source lists them. Target pointer fields never enter the hash; the
trivial instruction classes (`RoseInstrBaseTrivial`) return the bare
opcode. -/
def instrHash : RoseInstruction → Nat
  | .anchoredDelay groups _ => hashCombine (opcodeVal .ANCHORED_DELAY) groups
  | .checkLitEarly m => hashCombine (opcodeVal .CHECK_LIT_EARLY) m
  | .checkGroups g => hashCombine (opcodeVal .CHECK_GROUPS) g
  | .checkOnlyEod _ => opcodeVal .CHECK_ONLY_EOD
  | .checkBounds mn mx _ =>
      hashCombine (hashCombine (opcodeVal .CHECK_BOUNDS) mn) mx
  | .checkNotHandled k _ => hashCombine (opcodeVal .CHECK_NOT_HANDLED) k
  | .checkLookaround i c _ =>
      hashCombine (hashCombine (opcodeVal .CHECK_LOOKAROUND) i) c
  | .checkMask a c n o _ =>
      hashCombine (hashCombine (hashCombine (hashCombine
        (opcodeVal .CHECK_MASK) a) c) n) (intHash o)
  | .checkMask32 a c n o _ =>
      hashCombine (hashCombine (hashCombine (hashCombine
        (opcodeVal .CHECK_MASK_32) (hashList a)) (hashList c)) n) (intHash o)
  | .checkByte a c n o _ =>
      hashCombine (hashCombine (hashCombine (hashCombine
        (opcodeVal .CHECK_BYTE) a) c) n) (intHash o)
  | .checkInfx q l r _ =>
      hashCombine (hashCombine (hashCombine (opcodeVal .CHECK_INFX) q) l) r
  | .checkPrfx q l r _ =>
      hashCombine (hashCombine (hashCombine (opcodeVal .CHECK_PRFX) q) l) r
  | .pushDelayed d i =>
      hashCombine (hashCombine (opcodeVal .PUSH_DELAYED) d) i
  | .recordAnchored i => hashCombine (opcodeVal .RECORD_ANCHORED) i
  | .catchUp => opcodeVal .CATCH_UP
  | .catchUpMpv => opcodeVal .CATCH_UP_MPV
  | .somAdjust d => hashCombine (opcodeVal .SOM_ADJUST) d
  | .somLeftfix q l => hashCombine (hashCombine (opcodeVal .SOM_LEFTFIX) q) l
  | .somFromReport som =>
      hashCombine (hashCombine (opcodeVal .SOM_FROM_REPORT) som.type) som.onmatch
  | .somZero => opcodeVal .SOM_ZERO
  | .triggerInfx c q e =>
      hashCombine (hashCombine (hashCombine (opcodeVal .TRIGGER_INFX) c) q) e
  | .triggerSuffix q e =>
      hashCombine (hashCombine (opcodeVal .TRIGGER_SUFFIX) q) e
  | .dedupe qs dk oa _ =>
      hashCombine (hashCombine (hashCombine (opcodeVal .DEDUPE) qs) dk) (intHash oa)
  | .dedupeSom qs dk oa _ =>
      hashCombine (hashCombine (hashCombine (opcodeVal .DEDUPE_SOM) qs) dk)
        (intHash oa)
  | .reportChain e t =>
      hashCombine (hashCombine (opcodeVal .REPORT_CHAIN) e) t
  | .reportSomInt som =>
      hashCombine (hashCombine (opcodeVal .REPORT_SOM_INT) som.type) som.onmatch
  | .reportSomAware som =>
      hashCombine (hashCombine (opcodeVal .REPORT_SOM_AWARE) som.type) som.onmatch
  | .report om oa =>
      hashCombine (hashCombine (opcodeVal .REPORT) om) (intHash oa)
  | .reportExhaust om oa ek =>
      hashCombine (hashCombine (hashCombine (opcodeVal .REPORT_EXHAUST) om)
        (intHash oa)) ek
  | .reportSom om oa =>
      hashCombine (hashCombine (opcodeVal .REPORT_SOM) om) (intHash oa)
  | .reportSomExhaust om oa ek =>
      hashCombine (hashCombine (hashCombine (opcodeVal .REPORT_SOM_EXHAUST) om)
        (intHash oa)) ek
  | .dedupeAndReport qs dk om oa _ =>
      hashCombine (hashCombine (hashCombine (hashCombine
        (opcodeVal .DEDUPE_AND_REPORT) qs) dk) om) (intHash oa)
  | .finalReport om oa =>
      hashCombine (hashCombine (opcodeVal .FINAL_REPORT) om) (intHash oa)
  | .checkExhausted ek _ => hashCombine (opcodeVal .CHECK_EXHAUSTED) ek
  | .checkMinLength ea ml _ =>
      hashCombine (hashCombine (opcodeVal .CHECK_MIN_LENGTH) (intHash ea)) ml
  | .setState i => hashCombine (opcodeVal .SET_STATE) i
  | .setGroups g => hashCombine (opcodeVal .SET_GROUPS) g
  | .squashGroups g => hashCombine (opcodeVal .SQUASH_GROUPS) g
  | .checkState i _ => hashCombine (opcodeVal .CHECK_STATE) i
  | .sparseIterBegin nk jt _ _ =>
      jt.foldl (fun v j => hashCombine v j.1)
        (hashCombine (opcodeVal .SPARSE_ITER_BEGIN) nk)
  | .sparseIterNext st _ _ => hashCombine (opcodeVal .SPARSE_ITER_NEXT) st
  | .sparseIterAny nk ks _ =>
      hashCombine (hashCombine (opcodeVal .SPARSE_ITER_ANY) nk) (hashList ks)
  | .enginesEod io => hashCombine (opcodeVal .ENGINES_EOD) io
  | .suffixesEod => opcodeVal .SUFFIXES_EOD
  | .matcherEod => opcodeVal .MATCHER_EOD
  | .end_ => opcodeVal .END

/-- An offset map (`RoseInstruction::OffsetMap`): instruction identity to
assembled byte offset. Lookups (`offsets.at(...)`) are modelled as total
function application. -/
def OffsetMap : Type := Nat → Nat

/-- The equivalence check `equiv` / `equiv_impl`: false across different
concrete classes (the source's failed `dynamic_cast`), and for matching
classes the class's own `equiv_to`, written arm by arm from the source.
Non-target payload fields are compared directly and target fields through
the two offset maps. The `sparseIterBegin` arm follows the source: it
compares `iter_offset` and the target offsets, then the jump-table keys
and jump-target offsets pairwise, and does not compare `num_keys`. -/
def instrEquiv (a b : RoseInstruction) (offsets other_offsets : OffsetMap) : Bool :=
  match a, b with
  | .anchoredDelay g t, .anchoredDelay g2 t2 =>
      g == g2 && offsets t == other_offsets t2
  | .checkLitEarly m, .checkLitEarly m2 => m == m2
  | .checkGroups g, .checkGroups g2 => g == g2
  | .checkOnlyEod t, .checkOnlyEod t2 => offsets t == other_offsets t2
  | .checkBounds mn mx t, .checkBounds mn2 mx2 t2 =>
      mn == mn2 && mx == mx2 && offsets t == other_offsets t2
  | .checkNotHandled k t, .checkNotHandled k2 t2 =>
      k == k2 && offsets t == other_offsets t2
  | .checkLookaround i c t, .checkLookaround i2 c2 t2 =>
      i == i2 && c == c2 && offsets t == other_offsets t2
  | .checkMask a1 c1 n1 o1 t, .checkMask a2 c2 n2 o2 t2 =>
      a1 == a2 && c1 == c2 && n1 == n2 && o1 == o2 &&
        offsets t == other_offsets t2
  | .checkMask32 a1 c1 n1 o1 t, .checkMask32 a2 c2 n2 o2 t2 =>
      a1 == a2 && c1 == c2 && n1 == n2 && o1 == o2 &&
        offsets t == other_offsets t2
  | .checkByte a1 c1 n1 o1 t, .checkByte a2 c2 n2 o2 t2 =>
      a1 == a2 && c1 == c2 && n1 == n2 && o1 == o2 &&
        offsets t == other_offsets t2
  | .checkInfx q l r t, .checkInfx q2 l2 r2 t2 =>
      q == q2 && l == l2 && r == r2 && offsets t == other_offsets t2
  | .checkPrfx q l r t, .checkPrfx q2 l2 r2 t2 =>
      q == q2 && l == l2 && r == r2 && offsets t == other_offsets t2
  | .pushDelayed d i, .pushDelayed d2 i2 => d == d2 && i == i2
  | .recordAnchored i, .recordAnchored i2 => i == i2
  | .catchUp, .catchUp => true
  | .catchUpMpv, .catchUpMpv => true
  | .somAdjust d, .somAdjust d2 => d == d2
  | .somLeftfix q l, .somLeftfix q2 l2 => q == q2 && l == l2
  | .somFromReport s, .somFromReport s2 => s == s2
  | .somZero, .somZero => true
  | .triggerInfx c q e, .triggerInfx c2 q2 e2 =>
      c == c2 && q == q2 && e == e2
  | .triggerSuffix q e, .triggerSuffix q2 e2 => q == q2 && e == e2
  | .dedupe qs dk oa t, .dedupe qs2 dk2 oa2 t2 =>
      qs == qs2 && dk == dk2 && oa == oa2 && offsets t == other_offsets t2
  | .dedupeSom qs dk oa t, .dedupeSom qs2 dk2 oa2 t2 =>
      qs == qs2 && dk == dk2 && oa == oa2 && offsets t == other_offsets t2
  | .reportChain e ts, .reportChain e2 ts2 => e == e2 && ts == ts2
  | .reportSomInt s, .reportSomInt s2 => s == s2
  | .reportSomAware s, .reportSomAware s2 => s == s2
  | .report om oa, .report om2 oa2 => om == om2 && oa == oa2
  | .reportExhaust om oa ek, .reportExhaust om2 oa2 ek2 =>
      om == om2 && oa == oa2 && ek == ek2
  | .reportSom om oa, .reportSom om2 oa2 => om == om2 && oa == oa2
  | .reportSomExhaust om oa ek, .reportSomExhaust om2 oa2 ek2 =>
      om == om2 && oa == oa2 && ek == ek2
  | .dedupeAndReport qs dk om oa t, .dedupeAndReport qs2 dk2 om2 oa2 t2 =>
      qs == qs2 && dk == dk2 && om == om2 && oa == oa2 &&
        offsets t == other_offsets t2
  | .finalReport om oa, .finalReport om2 oa2 => om == om2 && oa == oa2
  | .checkExhausted ek t, .checkExhausted ek2 t2 =>
      ek == ek2 && offsets t == other_offsets t2
  | .checkMinLength ea ml t, .checkMinLength ea2 ml2 t2 =>
      ea == ea2 && ml == ml2 && offsets t == other_offsets t2
  | .setState i, .setState i2 => i == i2
  | .setGroups g, .setGroups g2 => g == g2
  | .squashGroups g, .squashGroups g2 => g == g2
  | .checkState i t, .checkState i2 t2 =>
      i == i2 && offsets t == other_offsets t2
  | .sparseIterBegin _ jt t io, .sparseIterBegin _ jt2 t2 io2 =>
      io == io2 && offsets t == other_offsets t2 &&
      jt.length == jt2.length &&
      (List.zip jt jt2).all fun p =>
        p.1.1 == p.2.1 && offsets p.1.2 == other_offsets p.2.2
  | .sparseIterNext st bg t, .sparseIterNext st2 bg2 t2 =>
      st == st2 && offsets bg == other_offsets bg2 &&
        offsets t == other_offsets t2
  | .sparseIterAny nk ks t, .sparseIterAny nk2 ks2 t2 =>
      nk == nk2 && ks == ks2 && offsets t == other_offsets t2
  | .enginesEod io, .enginesEod io2 => io == io2
  | .suffixesEod, .suffixesEod => true
  | .matcherEod, .matcherEod => true
  | .end_, .end_ => true
  | _, _ => false

/-- Target rewriting `update_target(old_target, new_target)`: every
target field equal to `o` becomes `n`. Instructions without targets
(`RoseInstrBaseNoTargets`) are untouched; `sparseIterBegin` also rewrites
its jump-table entries and `sparseIterNext` its companion `begin`
reference. -/
def updateTarget (i : RoseInstruction) (o n : Nat) : RoseInstruction :=
  match i with
  | .anchoredDelay g t => .anchoredDelay g (if t = o then n else t)
  | .checkOnlyEod t => .checkOnlyEod (if t = o then n else t)
  | .checkBounds mn mx t => .checkBounds mn mx (if t = o then n else t)
  | .checkNotHandled k t => .checkNotHandled k (if t = o then n else t)
  | .checkLookaround i1 c t => .checkLookaround i1 c (if t = o then n else t)
  | .checkMask a c nm of t => .checkMask a c nm of (if t = o then n else t)
  | .checkMask32 a c nm of t => .checkMask32 a c nm of (if t = o then n else t)
  | .checkByte a c ng of t => .checkByte a c ng of (if t = o then n else t)
  | .checkInfx q l r t => .checkInfx q l r (if t = o then n else t)
  | .checkPrfx q l r t => .checkPrfx q l r (if t = o then n else t)
  | .dedupe qs dk oa t => .dedupe qs dk oa (if t = o then n else t)
  | .dedupeSom qs dk oa t => .dedupeSom qs dk oa (if t = o then n else t)
  | .dedupeAndReport qs dk om oa t =>
      .dedupeAndReport qs dk om oa (if t = o then n else t)
  | .checkExhausted ek t => .checkExhausted ek (if t = o then n else t)
  | .checkMinLength ea ml t => .checkMinLength ea ml (if t = o then n else t)
  | .checkState i1 t => .checkState i1 (if t = o then n else t)
  | .sparseIterBegin nk jt t io =>
      .sparseIterBegin nk (jt.map fun j => (j.1, if j.2 = o then n else j.2))
        (if t = o then n else t) io
  | .sparseIterNext st bg t =>
      .sparseIterNext st (if bg = o then n else bg) (if t = o then n else t)
  | .sparseIterAny nk ks t => .sparseIterAny nk ks (if t = o then n else t)
  | other => other

/-- The instruction with every target field set to 0: its opcode together
with all non-target payload fields. Two instructions have equal
`stripTargets` views exactly when they share the opcode and agree on
every field other than the target pointer fields. -/
def stripTargets (i : RoseInstruction) : RoseInstruction :=
  match i with
  | .anchoredDelay g _ => .anchoredDelay g 0
  | .checkOnlyEod _ => .checkOnlyEod 0
  | .checkBounds mn mx _ => .checkBounds mn mx 0
  | .checkNotHandled k _ => .checkNotHandled k 0
  | .checkLookaround i1 c _ => .checkLookaround i1 c 0
  | .checkMask a c nm of _ => .checkMask a c nm of 0
  | .checkMask32 a c nm of _ => .checkMask32 a c nm of 0
  | .checkByte a c ng of _ => .checkByte a c ng of 0
  | .checkInfx q l r _ => .checkInfx q l r 0
  | .checkPrfx q l r _ => .checkPrfx q l r 0
  | .dedupe qs dk oa _ => .dedupe qs dk oa 0
  | .dedupeSom qs dk oa _ => .dedupeSom qs dk oa 0
  | .dedupeAndReport qs dk om oa _ => .dedupeAndReport qs dk om oa 0
  | .checkExhausted ek _ => .checkExhausted ek 0
  | .checkMinLength ea ml _ => .checkMinLength ea ml 0
  | .checkState i1 _ => .checkState i1 0
  | .sparseIterBegin nk jt _ io =>
      .sparseIterBegin nk (jt.map fun j => (j.1, 0)) 0 io
  | .sparseIterNext st _ _ => .sparseIterNext st 0 0
  | .sparseIterAny nk ks _ => .sparseIterAny nk ks 0
  | other => other

/-- Same opcode and equal non-target payload fields, targets arbitrary. -/
def sameModuloTargets (a b : RoseInstruction) : Bool :=
  stripTargets a == stripTargets b

/-- The list of an instruction's target pointer fields, in field order
(for `sparseIterNext` the companion `begin` reference counts as a target
field: `update_target` rewrites it and `equiv_to` compares it through the
offset maps). -/
def targetList : RoseInstruction → List Nat
  | .anchoredDelay _ t => [t]
  | .checkOnlyEod t => [t]
  | .checkBounds _ _ t => [t]
  | .checkNotHandled _ t => [t]
  | .checkLookaround _ _ t => [t]
  | .checkMask _ _ _ _ t => [t]
  | .checkMask32 _ _ _ _ t => [t]
  | .checkByte _ _ _ _ t => [t]
  | .checkInfx _ _ _ t => [t]
  | .checkPrfx _ _ _ t => [t]
  | .dedupe _ _ _ t => [t]
  | .dedupeSom _ _ _ t => [t]
  | .dedupeAndReport _ _ _ _ t => [t]
  | .checkExhausted _ t => [t]
  | .checkMinLength _ _ t => [t]
  | .checkState _ t => [t]
  | .sparseIterBegin _ jt t _ => t :: jt.map Prod.snd
  | .sparseIterNext _ bg t => [bg, t]
  | .sparseIterAny _ _ t => [t]
  | _ => []

/-- One owned instruction slot of a program: the instruction value
together with the numeric identity `nid` standing for the address of the
heap cell the `unique_ptr` owns. Distinct live instructions have distinct
identities. -/
structure PNode where
  nid : Nat
  ins : RoseInstruction
deriving DecidableEq

instance : Inhabited PNode := ⟨⟨0, .end_⟩⟩

/-- A program: the `std::vector<std::unique_ptr<RoseInstruction>> prog`
of `RoseProgram`, in order. -/
abbrev RoseProgram : Type := List PNode

namespace RoseProgram

/-- The constructor `RoseProgram()`: pushes a single freshly allocated
`RoseInstrEnd`; `eid` is the identity of that new END instruction. -/
def mk_program (eid : Nat) : RoseProgram := [⟨eid, .end_⟩]

/-- The `empty()` member: true when `std::next(prog.begin()) == prog.end()`,
i.e. when the vector holds exactly one element (the END). -/
def empty : RoseProgram → Bool
  | [_] => true
  | _ => false

/-- The `size()` member. -/
def size (P : RoseProgram) : Nat := P.length

/-- The `end_instruction()` member: the identity of the final
instruction (the source asserts the program is non-empty and ends in
END; on the unreachable empty program the model returns 0). -/
def end_instruction (P : RoseProgram) : Nat := ((P.getLast?).map PNode.nid).getD 0

/-- The private `update_targets` sweep: calls `update_target(old, new)`
on every instruction of the given range (here always a whole list). -/
def update_targets (l : List PNode) (old_target new_target : Nat) : List PNode :=
  l.map fun k => ⟨k.nid, updateTarget k.ins old_target new_target⟩

/-- Single-instruction `insert(it, ri)`: insert before position `pos`.
The source asserts `it != end()`, i.e. `pos < P.length`. -/
def insert (P : RoseProgram) (pos : Nat) (k : PNode) : RoseProgram :=
  P.take pos ++ k :: P.drop pos

/-- Block splice `insert(it, RoseProgram &&block)`: if the block is
empty, no change; otherwise the block's trailing END is popped, every
target inside the remaining block instructions that pointed at that END
is rewritten to the instruction at `pos`, and the block's instructions
are spliced in before `pos`. The `none` branch (`it == end()`) is
unreachable: the source asserts `it != end()`. -/
def insert_block (P : RoseProgram) (pos : Nat) (B : RoseProgram) : RoseProgram :=
  if empty B then P
  else
    match P[pos]? with
    | none => P
    | some succ =>
        P.take pos ++ update_targets B.dropLast (end_instruction B) succ.nid ++
          P.drop pos

/-- The state of the source block's vector `block.prog` after
`insert(it, std::move(block))` returns: unchanged when the block was
empty (the early return); otherwise `pop_back()` has removed the END and
`std::make_move_iterator` has moved every remaining `unique_ptr` out,
leaving `size - 1` null (moved-from) entries. -/
def insert_block_residue (B : RoseProgram) : List (Option PNode) :=
  if empty B then B.map some
  else List.replicate (B.length - 1) none

/-- The single-instruction `add_before_end`: insert just before the
terminating END, i.e. at `std::prev(prog.end())`. -/
def add_before_end (P : RoseProgram) (k : PNode) : RoseProgram :=
  insert P (P.length - 1) k

/-- The block `add_before_end`: early return on an empty block, else
splice before the terminating END. -/
def add_before_end_block (P : RoseProgram) (B : RoseProgram) : RoseProgram :=
  if empty B then P
  else insert_block P (P.length - 1) B

/-- The `add_block` member: append the block, replacing the current END.
Pointers to the popped END are rewritten to the first instruction of the
block, then the block's instructions (its own END included) are
appended. The `none` branch (`block.prog.front()` of an empty vector) is
unreachable for well-formed blocks. -/
def add_block (P : RoseProgram) (B : RoseProgram) : RoseProgram :=
  if empty B then P
  else
    match B.head? with
    | none => P
    | some b0 => update_targets P.dropLast (end_instruction P) b0.nid ++ B

/-- The `replace` member: swap the slot at `pos` for `k`, then run the
`update_targets` sweep over the whole vector, rewriting references to
the old instruction to the new one. The `none` branch (invalid iterator)
is unreachable in the source. -/
def replace (P : RoseProgram) (pos : Nat) (k : PNode) : RoseProgram :=
  match P[pos]? with
  | none => P
  | some old => update_targets (P.set pos k) old.nid k.nid

end RoseProgram

/-- The whole-program hash `RoseProgramHash::operator()`: fold
`boost::hash_combine` of each instruction's `hash()` over the program in
order, from seed 0. -/
def RoseProgramHash (P : RoseProgram) : Nat :=
  P.foldl (fun v k => hashCombine v (instrHash k.ins)) 0

/-- Rounding up to an alignment boundary. -/
def alignUp (x a : Nat) : Nat := if a = 0 then x else (x + a - 1) / a * a

/-- Modelled from the spec: pass 1 of the assembler (spec section 4.3),
which assigns each instruction an offset equal to the running total
aligned up to the opcode's alignment and accumulates the packed size.
The packed byte length and alignment of each opcode live in
rose_program.h, which is not among the staged sources, so they are
parameters `len` and `align`. Returns the association list from
instruction identity to byte offset. -/
def layout (len align : RoseInstructionCode → Nat) :
    RoseProgram → Nat → List (Nat × Nat)
  | [], _ => []
  | k :: rest, total =>
      let off := alignUp total (align (instrCode k.ins))
      (k.nid, off) :: layout len align rest (off + len (instrCode k.ins))

/-- The offset map of a program under pass-1 layout. -/
def offset_map (len align : RoseInstructionCode → Nat) (P : RoseProgram) :
    OffsetMap :=
  fun i => ((layout len align P 0).lookup i).getD 0

/-- Modelled from the spec: `RoseProgramEquivalence::operator()` (spec
section 4.5; its body is in rose_build_program.cpp, which is not among
the staged sources): programs of different instruction counts are not
equivalent, otherwise every position must satisfy the instruction
`equiv` relation under the two programs' pass-1 offset maps. -/
def RoseProgramEquivalence (len align : RoseInstructionCode → Nat)
    (prog1 prog2 : RoseProgram) : Bool :=
  prog1.length == prog2.length &&
    (List.zip prog1 prog2).all fun pq =>
      instrEquiv pq.1.ins pq.2.ins (offset_map len align prog1)
        (offset_map len align prog2)

/-- Stripping the targets of an instruction does not change its hash:
the per-opcode hash functions never read a target field. -/
theorem instrHash_stripTargets (i : RoseInstruction) :
    instrHash (stripTargets i) = instrHash i := by
  cases i <;> simp [instrHash, stripTargets, List.foldl_map]

/-- Target rewriting leaves the opcode and every non-target payload
field untouched. -/
theorem stripTargets_updateTarget (i : RoseInstruction) (o n : Nat) :
    stripTargets (updateTarget i o n) = stripTargets i := by
  cases i <;> simp [stripTargets, updateTarget, List.map_map, Function.comp]

/-- Target rewriting maps each target field `t` to `n` when `t = o` and
leaves it alone otherwise, in field order. -/
theorem targetList_updateTarget (i : RoseInstruction) (o n : Nat) :
    targetList (updateTarget i o n) =
      (targetList i).map fun t => if t = o then n else t := by
  cases i <;> simp [targetList, updateTarget, List.map_map, Function.comp]

/-- C3: the instruction hash does not depend on any target field: two
instructions of the same opcode whose non-target payload fields agree
hash identically, whatever their targets. -/
theorem hash_ignores_targets (a b : RoseInstruction)
    (h : sameModuloTargets a b = true) : instrHash a = instrHash b := by
  have hs : stripTargets a = stripTargets b := by
    simpa [sameModuloTargets] using h
  calc instrHash a = instrHash (stripTargets a) := (instrHash_stripTargets a).symm
    _ = instrHash (stripTargets b) := by rw [hs]
    _ = instrHash b := instrHash_stripTargets b

/-- Witness for C3: two bounds checks that differ only in their target
hash identically. -/
theorem hash_ignores_targets_witness :
    instrHash (.checkBounds 3 9 4) = instrHash (.checkBounds 3 9 11) :=
  hash_ignores_targets (.checkBounds 3 9 4) (.checkBounds 3 9 11) (by decide)

/-- C10: every trivial instruction class (END, CATCH_UP, CATCH_UP_MPV,
SOM_ZERO, SUFFIXES_EOD, MATCHER_EOD) hashes to exactly its opcode value,
and two instances of the same trivial class are equivalent under every
pair of offset maps; in particular the END instructions of any two
programs are equivalent. -/
theorem trivial_instr_hash_and_equiv (offsets other_offsets : OffsetMap) :
    (instrHash .end_ = opcodeVal .END ∧
     instrHash .catchUp = opcodeVal .CATCH_UP ∧
     instrHash .catchUpMpv = opcodeVal .CATCH_UP_MPV ∧
     instrHash .somZero = opcodeVal .SOM_ZERO ∧
     instrHash .suffixesEod = opcodeVal .SUFFIXES_EOD ∧
     instrHash .matcherEod = opcodeVal .MATCHER_EOD) ∧
    (instrEquiv .end_ .end_ offsets other_offsets = true ∧
     instrEquiv .catchUp .catchUp offsets other_offsets = true ∧
     instrEquiv .catchUpMpv .catchUpMpv offsets other_offsets = true ∧
     instrEquiv .somZero .somZero offsets other_offsets = true ∧
     instrEquiv .suffixesEod .suffixesEod offsets other_offsets = true ∧
     instrEquiv .matcherEod .matcherEod offsets other_offsets = true) :=
  ⟨⟨rfl, rfl, rfl, rfl, rfl, rfl⟩, rfl, rfl, rfl, rfl, rfl, rfl⟩

/-- C2, evaluated at the failing input: `equiv_to` of SPARSE_ITER_BEGIN
deviates from the non-target-fields contract in both directions. Two
begins that differ in the non-target payload field `num_keys` (1 versus
2) but agree elsewhere are reported equivalent, and two begins with
identical opcode, payload and target that differ only in the mutable
emission-state field `iter_offset` (0 versus 5) are reported not
equivalent. -/
theorem sparse_iter_begin_equiv_to_bug :
    (instrEquiv (.sparseIterBegin 1 [] 7 0) (.sparseIterBegin 2 [] 7 0)
        (fun _ => 0) (fun _ => 0) = true ∧
     sameModuloTargets (.sparseIterBegin 1 [] 7 0)
        (.sparseIterBegin 2 [] 7 0) = false) ∧
    instrEquiv (.sparseIterBegin 1 [] 7 0) (.sparseIterBegin 1 [] 7 5)
        (fun _ => 0) (fun _ => 0) = false := by
  decide

/-- Failing input for C1: a program holding one SPARSE_ITER_BEGIN with
`num_keys = 1`, an empty jump table and the END as target. -/
def iterProgP : RoseProgram := [⟨1, .sparseIterBegin 1 [] 2 0⟩, ⟨2, .end_⟩]

/-- Failing input for C1: like `iterProgP` but with `num_keys = 2` (and
fresh instruction identities: the two programs share no instruction). -/
def iterProgQ : RoseProgram := [⟨3, .sparseIterBegin 2 [] 4 0⟩, ⟨4, .end_⟩]

set_option maxHeartbeats 1000000

/-- C1, evaluated at the failing input: two single-iterator programs
that differ only in the SPARSE_ITER_BEGIN field `num_keys` are
equivalent under every pass-1 layout (`equiv_to` never compares
`num_keys`), yet their whole-program hashes differ (`hash()` mixes
`num_keys` in), breaking `equivalent(P, Q) ⇒ hash(P) == hash(Q)`. -/
theorem equiv_hash_compat_bug (len align : RoseInstructionCode → Nat) :
    RoseProgramEquivalence len align iterProgP iterProgQ = true ∧
    RoseProgramHash iterProgP ≠ RoseProgramHash iterProgQ := by
  constructor
  · show ((((offset_map len align iterProgP 2 == offset_map len align iterProgQ 4) &&
        true) && true) && (true && true)) = true
    rw [show offset_map len align iterProgP 2 = offset_map len align iterProgQ 4
      from rfl]
    simp
  · decide

/-- Whether an instruction is the END sentinel
(`code() == ROSE_INSTR_END`). -/
def isEnd : RoseInstruction → Bool
  | .end_ => true
  | _ => false

/-- Whether a program's final instruction is the END sentinel (false for
the ill-formed empty vector). -/
def lastIsEnd (P : RoseProgram) : Bool :=
  match P.getLast? with
  | some k => isEnd k.ins
  | none => false

/-- Target rewriting never changes which opcode an instruction has; in
particular it maps END to END. -/
theorem isEnd_updateTarget (i : RoseInstruction) (o n : Nat) :
    isEnd (updateTarget i o n) = isEnd i := by
  cases i <;> rfl

/-- The `update_targets` sweep keeps the final-instruction-is-END
property unchanged. -/
theorem lastIsEnd_update_targets (l : List PNode) (o n : Nat) :
    lastIsEnd (RoseProgram.update_targets l o n) = lastIsEnd l := by
  unfold lastIsEnd RoseProgram.update_targets
  rw [List.getLast?_map]
  cases l.getLast? <;> simp [isEnd_updateTarget]

/-- Appending to the left of a program that ends in END yields a program
that ends in END. -/
theorem lastIsEnd_append_right (l1 l2 : List PNode)
    (h : lastIsEnd l2 = true) : lastIsEnd (l1 ++ l2) = true := by
  unfold lastIsEnd at h ⊢
  rw [List.getLast?_append]
  cases hl : l2.getLast? with
  | none => rw [hl] at h; simp at h
  | some a => rw [hl] at h; simpa using h

/-- Dropping a strict prefix preserves the final instruction. -/
theorem getLast?_drop_of_lt (P : RoseProgram) (pos : Nat)
    (h : pos < P.length) : (P.drop pos).getLast? = P.getLast? := by
  conv_rhs => rw [← List.take_append_drop pos P]
  rw [List.getLast?_append]
  cases hl : (P.drop pos).getLast? with
  | none =>
      rw [List.getLast?_eq_none_iff] at hl
      rw [List.drop_eq_nil_iff] at hl
      omega
  | some a => simp

/-- A program ending in END stays so after dropping a strict prefix. -/
theorem lastIsEnd_drop (P : RoseProgram) (pos : Nat) (h : pos < P.length)
    (hP : lastIsEnd P = true) : lastIsEnd (P.drop pos) = true := by
  unfold lastIsEnd at hP ⊢
  rw [getLast?_drop_of_lt P pos h]
  exact hP

/-- A program ending in END is a non-empty vector. -/
theorem ne_nil_of_lastIsEnd (P : RoseProgram) (hP : lastIsEnd P = true) :
    P ≠ [] := by
  intro h
  rw [h] at hP
  simp [lastIsEnd] at hP

/-- Single-instruction insertion before a valid position keeps the final
instruction unchanged, so it preserves the END terminator. -/
theorem lastIsEnd_insert (P : RoseProgram) (pos : Nat) (k : PNode)
    (hpos : pos < P.length) (hP : lastIsEnd P = true) :
    lastIsEnd (RoseProgram.insert P pos k) = true := by
  unfold RoseProgram.insert
  rw [show P.take pos ++ k :: P.drop pos =
    P.take pos ++ ([k] ++ P.drop pos) by simp]
  exact lastIsEnd_append_right _ _
    (lastIsEnd_append_right _ _ (lastIsEnd_drop P pos hpos hP))

/-- Block splicing before a valid position keeps the final instruction
unchanged, so it preserves the END terminator. -/
theorem lastIsEnd_insert_block (P : RoseProgram) (pos : Nat)
    (B : RoseProgram) (hpos : pos < P.length) (hP : lastIsEnd P = true) :
    lastIsEnd (RoseProgram.insert_block P pos B) = true := by
  unfold RoseProgram.insert_block
  cases hB : RoseProgram.empty B with
  | true => simpa using hP
  | false =>
      rw [List.getElem?_eq_getElem hpos]
      simp only [Bool.false_eq_true, if_false]
      exact lastIsEnd_append_right _ _ (lastIsEnd_drop P pos hpos hP)

/-- Appending a block with `add_block` leaves the block's own END as the
final instruction. -/
theorem lastIsEnd_add_block (P B : RoseProgram) (hP : lastIsEnd P = true)
    (hB : lastIsEnd B = true) :
    lastIsEnd (RoseProgram.add_block P B) = true := by
  unfold RoseProgram.add_block
  cases hBe : RoseProgram.empty B with
  | true => simpa using hP
  | false =>
      cases hh : B.head? with
      | none =>
          rw [List.head?_eq_none_iff] at hh
          exact absurd hh (ne_nil_of_lastIsEnd B hB)
      | some b0 => simpa using lastIsEnd_append_right _ _ hB

/-- In-place replacement keeps an END terminator when the replaced slot
is not the last one, or when the replacement is itself an END. -/
theorem lastIsEnd_replace (P : RoseProgram) (pos : Nat) (m : PNode)
    (hpos : pos < P.length) (hP : lastIsEnd P = true)
    (hc : pos + 1 < P.length ∨ isEnd m.ins = true) :
    lastIsEnd (RoseProgram.replace P pos m) = true := by
  unfold RoseProgram.replace
  rw [List.getElem?_eq_getElem hpos]
  show lastIsEnd (RoseProgram.update_targets (P.set pos m)
    (P[pos].nid) m.nid) = true
  rw [lastIsEnd_update_targets, List.set_eq_take_cons_drop m hpos]
  by_cases h1 : pos + 1 < P.length
  · rw [show P.take pos ++ m :: P.drop (pos + 1) =
      P.take pos ++ ([m] ++ P.drop (pos + 1)) by simp]
    exact lastIsEnd_append_right _ _
      (lastIsEnd_append_right _ _ (lastIsEnd_drop P (pos + 1) h1 hP))
  · have h2 : isEnd m.ins = true := by
      cases hc with
      | inl h => exact absurd h h1
      | inr h => exact h
    have hd : P.drop (pos + 1) = [] := by
      rw [List.drop_eq_nil_iff]; omega
    rw [hd]
    exact lastIsEnd_append_right _ _ (by simpa [lastIsEnd] using h2)

/-- C7 (amended): a freshly constructed program has exactly one
instruction, the END sentinel (`size() == 1`, `empty() == true`), and
every container mutation keeps an END instruction as the final element:
single insertion and block splicing before a valid position,
`add_before_end`, `add_block`, and `replace` provided the replaced
position is not the terminating END or the replacement instruction is
itself an END (replacing the terminator by a non-END instruction leaves
a program that no longer ends in END; the source only asserts the
invariant after the swap). -/
theorem end_invariant_spec (P B : RoseProgram) (pos : Nat) (k m : PNode)
    (eid : Nat) (hP : lastIsEnd P = true) (hB : lastIsEnd B = true)
    (hpos : pos < P.length)
    (hm : pos + 1 < P.length ∨ isEnd m.ins = true) :
    RoseProgram.size (RoseProgram.mk_program eid) = 1 ∧
    RoseProgram.empty (RoseProgram.mk_program eid) = true ∧
    lastIsEnd (RoseProgram.mk_program eid) = true ∧
    lastIsEnd (RoseProgram.insert P pos k) = true ∧
    lastIsEnd (RoseProgram.insert_block P pos B) = true ∧
    lastIsEnd (RoseProgram.add_before_end P k) = true ∧
    lastIsEnd (RoseProgram.add_before_end_block P B) = true ∧
    lastIsEnd (RoseProgram.add_block P B) = true ∧
    lastIsEnd (RoseProgram.replace P pos m) = true := by
  have hlen : 0 < P.length := by
    cases P with
    | nil => exact absurd rfl (ne_nil_of_lastIsEnd [] hP)
    | cons a l => simp
  refine ⟨rfl, rfl, rfl, ?_, ?_, ?_, ?_, ?_, ?_⟩
  · exact lastIsEnd_insert P pos k hpos hP
  · exact lastIsEnd_insert_block P pos B hpos hP
  · exact lastIsEnd_insert P (P.length - 1) k (by omega) hP
  · unfold RoseProgram.add_before_end_block
    cases hBe : RoseProgram.empty B with
    | true => simpa using hP
    | false =>
        simpa using lastIsEnd_insert_block P (P.length - 1) B (by omega) hP
  · exact lastIsEnd_add_block P B hP hB
  · exact lastIsEnd_replace P pos m hpos hP hm

/-- Witness for C7 at a concrete input: one-instruction program, a
two-instruction block, insertion position 0, an END replacement. -/
theorem end_invariant_spec_witness :
    RoseProgram.size (RoseProgram.mk_program 9) = 1 ∧
    RoseProgram.empty (RoseProgram.mk_program 9) = true ∧
    lastIsEnd (RoseProgram.mk_program 9) = true ∧
    lastIsEnd (RoseProgram.insert [⟨0, .end_⟩] 0 ⟨3, .catchUp⟩) = true ∧
    lastIsEnd (RoseProgram.insert_block [⟨0, .end_⟩] 0
      [⟨1, .report 2 0⟩, ⟨2, .end_⟩]) = true ∧
    lastIsEnd (RoseProgram.add_before_end [⟨0, .end_⟩] ⟨3, .catchUp⟩) = true ∧
    lastIsEnd (RoseProgram.add_before_end_block [⟨0, .end_⟩]
      [⟨1, .report 2 0⟩, ⟨2, .end_⟩]) = true ∧
    lastIsEnd (RoseProgram.add_block [⟨0, .end_⟩]
      [⟨1, .report 2 0⟩, ⟨2, .end_⟩]) = true ∧
    lastIsEnd (RoseProgram.replace [⟨0, .end_⟩] 0 ⟨4, .end_⟩) = true :=
  end_invariant_spec [⟨0, .end_⟩] [⟨1, .report 2 0⟩, ⟨2, .end_⟩] 0
    ⟨3, .catchUp⟩ ⟨4, .end_⟩ 9 (by decide) (by decide) (by decide)
    (Or.inr (by decide))

/-- Counterexample for C7 as frozen: replacing the slot that holds the
terminating END by a non-END instruction yields a program whose final
instruction is not END. -/
theorem replace_end_counterexample :
    lastIsEnd (RoseProgram.replace [⟨0, .end_⟩] 0 ⟨1, .catchUp⟩) = false := by
  decide

/-- C4: appending a non-empty block with `add_block` to a program whose
last element is the END `e` pops that END, runs the target sweep that
redirects every target equal to `e` to the first instruction `b0` of the
block (changing no other field, by the final conjunct), and appends the
whole block, whose own END is the final instruction of the result. -/
theorem add_block_spec (P0 B : RoseProgram) (e b0 : PNode)
    (hBne : RoseProgram.empty B = false) (hb0 : B.head? = some b0)
    (hEnd : e.ins = .end_) (hB : lastIsEnd B = true) :
    RoseProgram.add_block (P0 ++ [e]) B =
      RoseProgram.update_targets P0 e.nid b0.nid ++ B ∧
    (RoseProgram.add_block (P0 ++ [e]) B).getLast? = B.getLast? ∧
    lastIsEnd (RoseProgram.add_block (P0 ++ [e]) B) = true ∧
    (∀ k ∈ P0,
      stripTargets (updateTarget k.ins e.nid b0.nid) = stripTargets k.ins ∧
      targetList (updateTarget k.ins e.nid b0.nid) =
        (targetList k.ins).map fun t => if t = e.nid then b0.nid else t) := by
  have hPe : lastIsEnd (P0 ++ [e]) = true := by
    unfold lastIsEnd
    rw [List.getLast?_concat]
    simp [isEnd, hEnd]
  have hmain : RoseProgram.add_block (P0 ++ [e]) B =
      RoseProgram.update_targets P0 e.nid b0.nid ++ B := by
    unfold RoseProgram.add_block
    rw [hBne]
    simp only [Bool.false_eq_true, if_false]
    rw [hb0]
    show RoseProgram.update_targets (P0 ++ [e]).dropLast
      (RoseProgram.end_instruction (P0 ++ [e])) b0.nid ++ B = _
    unfold RoseProgram.end_instruction
    rw [List.getLast?_concat, List.dropLast_concat]
    simp
  refine ⟨hmain, ?_, lastIsEnd_add_block (P0 ++ [e]) B hPe hB, ?_⟩
  · rw [hmain, List.getLast?_append]
    cases hl : B.getLast? with
    | none =>
        rw [List.getLast?_eq_none_iff] at hl
        exact absurd hl (ne_nil_of_lastIsEnd B hB)
    | some a => simp
  · exact fun k _ =>
      ⟨stripTargets_updateTarget k.ins e.nid b0.nid,
       targetList_updateTarget k.ins e.nid b0.nid⟩

/-- Witness for C4: appending `[REPORT(7, 0), END]` to a program
`[CHECK_BOUNDS -> END, END]` redirects the bounds check to the REPORT
and leaves the block's END as terminator. -/
theorem add_block_spec_witness :
    RoseProgram.add_block ([⟨1, .checkBounds 0 5 2⟩] ++ [⟨2, .end_⟩])
        [⟨3, .report 7 0⟩, ⟨4, .end_⟩] =
      RoseProgram.update_targets [⟨1, .checkBounds 0 5 2⟩] 2 3 ++
        [⟨3, .report 7 0⟩, ⟨4, .end_⟩] ∧
    (RoseProgram.add_block ([⟨1, .checkBounds 0 5 2⟩] ++ [⟨2, .end_⟩])
        [⟨3, .report 7 0⟩, ⟨4, .end_⟩]).getLast? =
      List.getLast? [⟨3, .report 7 0⟩, ⟨4, .end_⟩] ∧
    lastIsEnd (RoseProgram.add_block ([⟨1, .checkBounds 0 5 2⟩] ++ [⟨2, .end_⟩])
        [⟨3, .report 7 0⟩, ⟨4, .end_⟩]) = true ∧
    (∀ k ∈ [(⟨1, .checkBounds 0 5 2⟩ : PNode)],
      stripTargets (updateTarget k.ins 2 3) = stripTargets k.ins ∧
      targetList (updateTarget k.ins 2 3) =
        (targetList k.ins).map fun t => if t = 2 then 3 else t) :=
  add_block_spec [⟨1, .checkBounds 0 5 2⟩] [⟨3, .report 7 0⟩, ⟨4, .end_⟩]
    ⟨2, .end_⟩ ⟨3, .report 7 0⟩ (by decide) (by decide) (by decide) (by decide)

/-- C5: splicing a non-empty block before a valid non-end position `pos`
inserts the block's instructions without its trailing END, in order,
right before the instruction `succ` that was at `pos`; inside the
spliced instructions exactly the target fields equal to the block's END
are rewritten to `succ`, and every other field is carried over
unchanged. -/
theorem insert_block_spec (P B : RoseProgram) (pos : Nat) (succ : PNode)
    (hpos : P[pos]? = some succ) (hBne : RoseProgram.empty B = false) :
    RoseProgram.insert_block P pos B =
      P.take pos ++
        RoseProgram.update_targets B.dropLast (RoseProgram.end_instruction B)
          succ.nid ++ P.drop pos ∧
    (∀ k ∈ B.dropLast,
      stripTargets (updateTarget k.ins (RoseProgram.end_instruction B)
        succ.nid) = stripTargets k.ins ∧
      targetList (updateTarget k.ins (RoseProgram.end_instruction B)
          succ.nid) =
        (targetList k.ins).map
          fun t => if t = RoseProgram.end_instruction B then succ.nid
            else t) := by
  constructor
  · unfold RoseProgram.insert_block
    rw [hBne]
    simp only [Bool.false_eq_true, if_false]
    rw [hpos]
  · exact fun k _ =>
      ⟨stripTargets_updateTarget k.ins (RoseProgram.end_instruction B)
        succ.nid,
       targetList_updateTarget k.ins (RoseProgram.end_instruction B)
        succ.nid⟩

/-- Witness for C5: splicing `[CHECK_GROUPS, END]` into `[END]` before
position 0. -/
theorem insert_block_spec_witness :
    RoseProgram.insert_block [⟨0, .end_⟩] 0 [⟨5, .checkGroups 3⟩, ⟨6, .end_⟩] =
      List.take 0 [⟨0, .end_⟩] ++
        RoseProgram.update_targets
          (List.dropLast [⟨5, .checkGroups 3⟩, ⟨6, .end_⟩])
          (RoseProgram.end_instruction [⟨5, .checkGroups 3⟩, ⟨6, .end_⟩]) 0 ++
        List.drop 0 [⟨0, .end_⟩] ∧
    (∀ k ∈ List.dropLast [(⟨5, .checkGroups 3⟩ : PNode), ⟨6, .end_⟩],
      stripTargets (updateTarget k.ins
        (RoseProgram.end_instruction [⟨5, .checkGroups 3⟩, ⟨6, .end_⟩]) 0) =
        stripTargets k.ins ∧
      targetList (updateTarget k.ins
          (RoseProgram.end_instruction [⟨5, .checkGroups 3⟩, ⟨6, .end_⟩]) 0) =
        (targetList k.ins).map
          fun t =>
            if t = RoseProgram.end_instruction [⟨5, .checkGroups 3⟩, ⟨6, .end_⟩]
            then 0 else t) :=
  insert_block_spec [⟨0, .end_⟩] [⟨5, .checkGroups 3⟩, ⟨6, .end_⟩] 0
    ⟨0, .end_⟩ (by decide) (by decide)

/-- Counterexample for C6 as frozen: after splicing the block
`[CATCH_UP, END]` into a program, the block's vector is not left in the
state of a program containing nothing: it still holds one moved-from
null slot, so it is neither the empty vector nor a valid program. -/
theorem insert_block_residue_counterexample :
    RoseProgram.insert_block_residue [⟨3, .catchUp⟩, ⟨4, .end_⟩] = [none] ∧
    RoseProgram.insert_block_residue [⟨3, .catchUp⟩, ⟨4, .end_⟩] ≠ [] ∧
    RoseProgram.insert_block_residue [⟨3, .catchUp⟩, ⟨4, .end_⟩] ≠
      List.map some [⟨3, .catchUp⟩, ⟨4, .end_⟩] := by
  decide

/-- C6 (amended): splicing a non-empty block transfers all of its
instructions out: the END is popped and every remaining slot of the
block's vector is left as a moved-from null pointer, so the block holds
no instruction afterwards, but its vector still has `size - 1` entries
rather than being restored to an empty program. -/
theorem insert_block_consumes (B : RoseProgram)
    (hBne : RoseProgram.empty B = false) :
    RoseProgram.insert_block_residue B =
      List.replicate (B.length - 1) none ∧
    ∀ x ∈ RoseProgram.insert_block_residue B, x = none := by
  have hmain : RoseProgram.insert_block_residue B =
      List.replicate (B.length - 1) none := by
    unfold RoseProgram.insert_block_residue
    rw [hBne]
    simp
  refine ⟨hmain, ?_⟩
  intro x hx
  rw [hmain] at hx
  exact (List.mem_replicate.mp hx).2

/-- Witness for C6: the residue of the two-instruction block is one null
slot. -/
theorem insert_block_consumes_witness :
    RoseProgram.insert_block_residue [⟨7, .somZero⟩, ⟨8, .end_⟩] =
      List.replicate (List.length [(⟨7, .somZero⟩ : PNode), ⟨8, .end_⟩] - 1)
        none ∧
    ∀ x ∈ RoseProgram.insert_block_residue [⟨7, .somZero⟩, ⟨8, .end_⟩],
      x = none :=
  insert_block_consumes [⟨7, .somZero⟩, ⟨8, .end_⟩] (by decide)

/-- C8: `replace(pos, r)` swaps the slot at `pos` for `r` and runs the
target sweep over the whole resulting vector (the new instruction
included), rewriting exactly the target fields that held the old
instruction's identity to the new one; by the final conjunct no opcode
or non-target field of any instruction changes and no other target
moves. -/
theorem replace_spec (P : RoseProgram) (pos : Nat) (old k : PNode)
    (hold : P[pos]? = some old) :
    RoseProgram.replace P pos k =
      RoseProgram.update_targets (P.set pos k) old.nid k.nid ∧
    (RoseProgram.replace P pos k).length = P.length ∧
    (RoseProgram.replace P pos k)[pos]? =
      some ⟨k.nid, updateTarget k.ins old.nid k.nid⟩ ∧
    (∀ i, i ≠ pos →
      (RoseProgram.replace P pos k)[i]? =
        (P[i]?).map fun m => ⟨m.nid, updateTarget m.ins old.nid k.nid⟩) ∧
    (∀ m : PNode,
      stripTargets (updateTarget m.ins old.nid k.nid) = stripTargets m.ins ∧
      targetList (updateTarget m.ins old.nid k.nid) =
        (targetList m.ins).map fun t => if t = old.nid then k.nid else t) := by
  have hlt : pos < P.length := (List.getElem?_eq_some_iff.mp hold).1
  have hmain : RoseProgram.replace P pos k =
      RoseProgram.update_targets (P.set pos k) old.nid k.nid := by
    unfold RoseProgram.replace
    rw [hold]
  refine ⟨hmain, ?_, ?_, ?_, ?_⟩
  · rw [hmain]
    simp [RoseProgram.update_targets]
  · rw [hmain]
    simp only [RoseProgram.update_targets, List.map_set]
    rw [List.getElem?_set_self (by simpa using hlt)]
  · intro i hi
    rw [hmain]
    simp [RoseProgram.update_targets, List.getElem?_set_ne (Ne.symm hi)]
  · exact fun m =>
      ⟨stripTargets_updateTarget m.ins old.nid k.nid,
       targetList_updateTarget m.ins old.nid k.nid⟩

/-- Witness for C8: replacing the CHECK_STATE at position 0 of a
two-instruction program by a CHECK_GROUPS instruction. -/
theorem replace_spec_witness :
    RoseProgram.replace [⟨1, .checkState 4 2⟩, ⟨2, .end_⟩] 0
        ⟨3, .checkGroups 8⟩ =
      RoseProgram.update_targets
        (List.set [⟨1, .checkState 4 2⟩, ⟨2, .end_⟩] 0 ⟨3, .checkGroups 8⟩)
        1 3 ∧
    (RoseProgram.replace [⟨1, .checkState 4 2⟩, ⟨2, .end_⟩] 0
        ⟨3, .checkGroups 8⟩).length =
      List.length [(⟨1, .checkState 4 2⟩ : PNode), ⟨2, .end_⟩] ∧
    (RoseProgram.replace [⟨1, .checkState 4 2⟩, ⟨2, .end_⟩] 0
        ⟨3, .checkGroups 8⟩)[0]? =
      some ⟨3, updateTarget (.checkGroups 8) 1 3⟩ ∧
    (∀ i, i ≠ 0 →
      (RoseProgram.replace [⟨1, .checkState 4 2⟩, ⟨2, .end_⟩] 0
          ⟨3, .checkGroups 8⟩)[i]? =
        (([⟨1, .checkState 4 2⟩, ⟨2, .end_⟩] : RoseProgram)[i]?).map
          fun m => ⟨m.nid, updateTarget m.ins 1 3⟩) ∧
    (∀ m : PNode,
      stripTargets (updateTarget m.ins 1 3) = stripTargets m.ins ∧
      targetList (updateTarget m.ins 1 3) =
        (targetList m.ins).map fun t => if t = 1 then 3 else t) :=
  replace_spec [⟨1, .checkState 4 2⟩, ⟨2, .end_⟩] 0 ⟨1, .checkState 4 2⟩
    ⟨3, .checkGroups 8⟩ (by decide)

/-- C9: inserting or appending an empty block (a block holding only its
END) is a complete no-op for all three block operations: the program is
returned entirely unchanged, so its instruction sequence, its END
terminator and every target field stay as they were. -/
theorem empty_block_noop (P B : RoseProgram) (pos : Nat)
    (hB : RoseProgram.empty B = true) :
    RoseProgram.insert_block P pos B = P ∧
    RoseProgram.add_before_end_block P B = P ∧
    RoseProgram.add_block P B = P := by
  refine ⟨?_, ?_, ?_⟩ <;>
    simp [RoseProgram.insert_block, RoseProgram.add_before_end_block,
      RoseProgram.add_block, hB]

/-- Witness for C9: the empty block `[END]` changes nothing. -/
theorem empty_block_noop_witness :
    RoseProgram.insert_block [⟨0, .report 1 2⟩, ⟨1, .end_⟩] 0
      [⟨5, .end_⟩] = [⟨0, .report 1 2⟩, ⟨1, .end_⟩] ∧
    RoseProgram.add_before_end_block [⟨0, .report 1 2⟩, ⟨1, .end_⟩]
      [⟨5, .end_⟩] = [⟨0, .report 1 2⟩, ⟨1, .end_⟩] ∧
    RoseProgram.add_block [⟨0, .report 1 2⟩, ⟨1, .end_⟩]
      [⟨5, .end_⟩] = [⟨0, .report 1 2⟩, ⟨1, .end_⟩] :=
  empty_block_noop [⟨0, .report 1 2⟩, ⟨1, .end_⟩] [⟨5, .end_⟩] 0 (by decide)

end RoseIR
